import Mathlib

/-!
# mini-social-media: the relational handlers of `src/app.js`

A shallow embedding of the twelve Express route handlers of `src/app.js`.
Every handler is a pure function from the store state (and the request's path
segments and body fields) to the new store state and the HTTP response.

The handlers are translated line by line from `src/app.js`.  They are written
against a model of the Prisma Client calls they make (`prisma.user.create`,
`prisma.post.update`, ...), which follows the documented behaviour of those
calls: `findUnique` resolves to `null` for a missing row, `update` and `delete`
reject with `P2025` for a missing row, a nested `connect` rejects when its
target is missing, a nested many-to-many `disconnect` ignores a pair that is
not linked, and one call with nested writes commits or rolls back as a whole.
-/

namespace MiniSocial

/-! ## Decoding of path segments: JavaScript `parseInt` -/

/-- The code points that `parseInt` skips at the start of its argument
(ECMAScript `WhiteSpace` and `LineTerminator`). -/
def isStrWhiteSpaceChar (c : Char) : Bool :=
  let n := c.toNat
  n == 0x09 || n == 0x0A || n == 0x0B || n == 0x0C || n == 0x0D || n == 0x20 ||
  n == 0xA0 || n == 0x1680 || (0x2000 ≤ n && n ≤ 0x200A) || n == 0x2028 ||
  n == 0x2029 || n == 0x202F || n == 0x205F || n == 0x3000 || n == 0xFEFF

/-- The value of `c` as a digit of the given radix (10 or 16), if it is one. -/
def digitValue (radix : Nat) (c : Char) : Option Nat :=
  let n := c.toNat
  if 48 ≤ n && n ≤ 57 then some (n - 48)
  else if radix == 16 && 97 ≤ n && n ≤ 102 then some (n - 87)
  else if radix == 16 && 65 ≤ n && n ≤ 70 then some (n - 55)
  else none

/-- The digits of the longest run of radix digits at the start of the input. -/
def readDigits (radix : Nat) : List Char → List Nat
  | [] => []
  | c :: cs =>
    match digitValue radix c with
    | some d => d :: readDigits radix cs
    | none => []

/-- The sign that `parseInt` reads at the start of the input (`-` gives -1, a
`+` or no sign gives 1) and the input after it. -/
def readSign : List Char → Int × List Char
  | '-' :: r => (-1, r)
  | '+' :: r => (1, r)
  | s => (1, s)

/-- The radix that `parseInt` uses when it is given none: 16 after a `0x` or
`0X` mark, which is skipped, and 10 otherwise. -/
def readRadix : List Char → Nat × List Char
  | '0' :: 'x' :: r => (16, r)
  | '0' :: 'X' :: r => (16, r)
  | r => (10, r)

/-- JavaScript `parseInt(string)` with no radix argument, as every handler
calls it on a path segment.  `none` stands for `NaN`.  Leading white space is
skipped, one sign is read, a `0x` or `0X` mark selects radix 16, and the
longest run of digits is converted; whatever follows the digits is ignored.
The result is the exact integer (the rounding of a JavaScript number beyond
`2^53` is not part of the embedding). -/
def parseInt (str : String) : Option Int :=
  let signed := readSign (str.toList.dropWhile isStrWhiteSpaceChar)
  let based := readRadix signed.2
  match readDigits based.1 based.2 with
  | [] => none
  | ds => some (signed.1 * ((ds.foldl (fun acc d => acc * based.1 + d) 0 : Nat) : Int))

/-! ## Data model -/

/-- Modelled from the spec: the Prisma schema is not among the sources.  A
User has a unique numeric id, a unique email and a display name. -/
structure User where
  id : Int
  email : String
  name : Option String
deriving DecidableEq, Repr

/-- Modelled from the spec: the Prisma schema is not among the sources.  A
Profile has a unique numeric id, a free-text bio and the unique foreign key
`userId`. -/
structure Profile where
  id : Int
  bio : Option String
  userId : Int
deriving DecidableEq, Repr

/-- Modelled from the spec: the Prisma schema is not among the sources.  A
Post has a unique numeric id, a title, a content and the foreign key `userId`
(it is empty only after a `SetNull` referential action). -/
structure Post where
  id : Int
  title : Option String
  content : Option String
  userId : Option Int
deriving DecidableEq, Repr

/-- Modelled from the spec: the Prisma schema is not among the sources.  A
Category has a unique numeric id and a unique name. -/
structure Category where
  id : Int
  name : String
deriving DecidableEq, Repr

/-- The rows of the four tables and of the implicit Post-Category join table,
whose rows are the pairs `(postId, categoryId)`. -/
structure Store where
  users : List User
  profiles : List Profile
  posts : List Post
  categories : List Category
  postCategories : List (Int × Int)
deriving DecidableEq, Repr

/-- Modelled from the spec: the Prisma schema is not among the sources, so the
action the store takes on the Posts of a deleted User is a parameter. -/
inductive ReferentialAction where
  | restrict
  | cascade
  | setNull
deriving DecidableEq, Repr

/-- The rejections of a Prisma Client call: a `PrismaClientValidationError`
(a `NaN` or missing argument), `P2002` (unique constraint), `P2003` (foreign
key constraint) and `P2025` (a required record was not found). -/
inductive PrismaError where
  | validation
  | uniqueConstraint
  | foreignKey
  | recordNotFound
deriving DecidableEq, Repr

/-- The id an autoincrement column gives to the next row: one more than the
greatest id in the table, and 1 in an empty table. -/
def nextId (ids : List Int) : Int :=
  ids.foldl max 0 + 1

/-! ## The Prisma Client calls made by the handlers -/

/-- The call `prisma.user.create` with the nested `profile: { create: { bio } }`.
The two rows are written in one transaction: a rejection leaves the store as
it was. -/
def prisma.user.create (s : Store) (email name bio : Option String) :
    Except PrismaError (Store × User × Profile) :=
  match email with
  | none => .error .validation
  | some e =>
    if s.users.any (fun u => u.email == e) then .error .uniqueConstraint
    else
      let user : User := { id := nextId (s.users.map (fun u => u.id)), email := e, name := name }
      if s.profiles.any (fun p => p.userId == user.id) then .error .uniqueConstraint
      else
        let profile : Profile :=
          { id := nextId (s.profiles.map (fun p => p.id)), bio := bio, userId := user.id }
        .ok ({ s with users := s.users ++ [user], profiles := s.profiles ++ [profile] },
          user, profile)

/-- The call `prisma.user.findUnique({ where: { id } })`: resolves to the row,
or to `null` (here `none`) when no row has that id; it rejects only for an
invalid argument such as `NaN`. -/
def prisma.user.findUnique (s : Store) (id : Option Int) : Except PrismaError (Option User) :=
  match id with
  | none => .error .validation
  | some i => .ok (s.users.find? (fun u => u.id == i))

/-- The relation loaded by `include: { profile: true }`. -/
def includeProfile (s : Store) (u : User) : Option Profile :=
  s.profiles.find? (fun p => p.userId == u.id)

/-- The relation loaded by `include: { posts: true }`. -/
def includePosts (s : Store) (u : User) : List Post :=
  s.posts.filter (fun p => p.userId == some u.id)

/-- The relation loaded by `include: { categories: true }`. -/
def includeCategories (s : Store) (p : Post) : List Category :=
  s.categories.filter (fun c => decide ((p.id, c.id) ∈ s.postCategories))

/-- The effect of `data: { bio }` on a row: an `undefined` bio leaves it as it is. -/
def setBio (bio : Option String) (p : Profile) : Profile :=
  { p with bio := match bio with | some b => some b | none => p.bio }

/-- The call `prisma.profile.update({ where: { userId }, data: { bio } })`. -/
def prisma.profile.update (s : Store) (userId : Option Int) (bio : Option String) :
    Except PrismaError (Store × Profile) :=
  match userId with
  | none => .error .validation
  | some i =>
    match s.profiles.find? (fun p => p.userId == i) with
    | none => .error .recordNotFound
    | some p =>
      .ok ({ s with profiles := s.profiles.map (fun q => if q.userId == i then setBio bio q else q) },
        setBio bio p)

/-- The call `prisma.profile.delete({ where: { userId } })`. -/
def prisma.profile.delete (s : Store) (userId : Option Int) :
    Except PrismaError (Store × Profile) :=
  match userId with
  | none => .error .validation
  | some i =>
    match s.profiles.find? (fun p => p.userId == i) with
    | none => .error .recordNotFound
    | some p => .ok ({ s with profiles := s.profiles.filter (fun q => !(q.userId == i)) }, p)

/-- The call `prisma.user.delete({ where: { id } })`.  A User that Posts still
reference is handled by the referential action of the schema. -/
def prisma.user.delete (ra : ReferentialAction) (s : Store) (id : Option Int) :
    Except PrismaError (Store × User) :=
  match id with
  | none => .error .validation
  | some i =>
    match s.users.find? (fun u => u.id == i) with
    | none => .error .recordNotFound
    | some u =>
      let users := s.users.filter (fun v => !(v.id == i))
      match ra with
      | .restrict =>
        if s.posts.any (fun p => p.userId == some i) then .error .foreignKey
        else .ok ({ s with users := users }, u)
      | .cascade =>
        let gone := (s.posts.filter (fun p => p.userId == some i)).map (fun p => p.id)
        .ok ({ s with
                users := users
                posts := s.posts.filter (fun p => !(p.userId == some i))
                postCategories := s.postCategories.filter (fun l => !(decide (l.1 ∈ gone))) }, u)
      | .setNull =>
        .ok ({ s with
                users := users
                posts := s.posts.map
                  (fun p => if p.userId == some i then { p with userId := none } else p) }, u)

/-- The call `prisma.post.create` with `user: { connect: { id } }`. -/
def prisma.post.create (s : Store) (title content : Option String) (userId : Option Int) :
    Except PrismaError (Store × Post) :=
  match userId with
  | none => .error .validation
  | some i =>
    if s.users.any (fun u => u.id == i) then
      let post : Post :=
        { id := nextId (s.posts.map (fun p => p.id)), title := title, content := content,
          userId := some i }
      .ok ({ s with posts := s.posts ++ [post] }, post)
    else .error .recordNotFound

/-- The call `prisma.post.findUnique({ where: { id } })`. -/
def prisma.post.findUnique (s : Store) (id : Option Int) : Except PrismaError (Option Post) :=
  match id with
  | none => .error .validation
  | some i => .ok (s.posts.find? (fun p => p.id == i))

/-- The `data` argument of `prisma.post.update`: the scalar fields and the
nested `categories: { connect, disconnect }` writes; an absent key is `none`. -/
structure PostUpdateData where
  title : Option String := none
  content : Option String := none
  connect : Option (List (Option Int)) := none
  disconnect : Option (List (Option Int)) := none

/-- The effect of the scalar fields of `data` on a row: an `undefined` field
leaves the column as it is. -/
def PostUpdateData.setFields (data : PostUpdateData) (p : Post) : Post :=
  { p with
      title := match data.title with | some t => some t | none => p.title
      content := match data.content with | some t => some t | none => p.content }

/-- Nested `connect` on the join table: a pair already present is kept once. -/
def connectLinks (postId : Int) (ids : List Int) (links : List (Int × Int)) : List (Int × Int) :=
  ids.foldl (fun ls c => if (postId, c) ∈ ls then ls else ls ++ [(postId, c)]) links

/-- Nested `disconnect` on the join table: the pairs of the post with one of
the given ids are removed; a pair that is not there is ignored. -/
def disconnectLinks (postId : Int) (ids : List Int) (links : List (Int × Int)) :
    List (Int × Int) :=
  links.filter (fun l => !(l.1 == postId && decide (l.2 ∈ ids)))

/-- The call `prisma.post.update({ where: { id }, data })`.  The nested writes
run in the order of the keys of `data` in `src/app.js` (`connect`, then
`disconnect`) inside one transaction: a rejection leaves the store as it was. -/
def prisma.post.update (s : Store) (id : Option Int) (data : PostUpdateData) :
    Except PrismaError (Store × Post) :=
  match id with
  | none => .error .validation
  | some i =>
    let connect := data.connect.getD []
    let disconnect := data.disconnect.getD []
    if connect.any Option.isNone || disconnect.any Option.isNone then .error .validation
    else
      match s.posts.find? (fun p => p.id == i) with
      | none => .error .recordNotFound
      | some p =>
        let add := connect.filterMap (fun x => x)
        let del := disconnect.filterMap (fun x => x)
        if add.all (fun c => s.categories.any (fun k => k.id == c)) then
          .ok ({ s with
                  posts := s.posts.map (fun q => if q.id == i then data.setFields q else q)
                  postCategories := disconnectLinks i del (connectLinks i add s.postCategories) },
            data.setFields p)
        else .error .recordNotFound

/-- The call `prisma.post.delete({ where: { id } })`; the rows of the implicit
join table go with the post. -/
def prisma.post.delete (s : Store) (id : Option Int) : Except PrismaError (Store × Post) :=
  match id with
  | none => .error .validation
  | some i =>
    match s.posts.find? (fun p => p.id == i) with
    | none => .error .recordNotFound
    | some p =>
      .ok ({ s with
              posts := s.posts.filter (fun q => !(q.id == i))
              postCategories := s.postCategories.filter (fun l => !(l.1 == i)) }, p)

/-- The call `prisma.category.upsert({ where: { name }, update: {}, create: { name } })`. -/
def prisma.category.upsert (s : Store) (name : Option String) :
    Except PrismaError (Store × Category) :=
  match name with
  | none => .error .validation
  | some n =>
    match s.categories.find? (fun c => c.name == n) with
    | some c => .ok (s, c)
    | none =>
      let c : Category := { id := nextId (s.categories.map (fun k => k.id)), name := n }
      .ok ({ s with categories := s.categories ++ [c] }, c)

/-! ## HTTP responses -/

/-- The JSON values the handlers send. -/
inductive Body where
  | null
  | user (u : User) (profile : Option Profile)
  | userWithPosts (u : User) (posts : List Post)
  | profile (p : Profile)
  | post (p : Post)
  | postWithCategories (p : Post) (categories : List Category)
  | message (text : String)
  | error (text : String)
  | errorMessage (e : PrismaError)
deriving DecidableEq, Repr

/-- A response: the status code (200 when the handler sets none) and the body. -/
structure Response where
  status : Nat
  body : Body
deriving DecidableEq, Repr

/-- What a handler leaves behind: the store, and the response it sent, if it
sent one. -/
abbrev Outcome := Store × Option Response

/-! ## The route handlers of `src/app.js` -/

/-- Handler of `POST /users` (`src/app.js`, lines 12-30). -/
def postUsers (s : Store) (email name bio : Option String) : Outcome :=
  match prisma.user.create s email name bio with
  | .ok (s1, user, profile) => (s1, some ⟨201, .user user (some profile)⟩)
  | .error e => (s, some ⟨400, .errorMessage e⟩)

/-- Handler of `GET /users/:id` (lines 33-45). -/
def getUsersId (s : Store) (id : String) : Outcome :=
  match prisma.user.findUnique s (parseInt id) with
  | .ok (some user) => (s, some ⟨200, .user user (includeProfile s user)⟩)
  | .ok none => (s, some ⟨200, .null⟩)
  | .error _ => (s, some ⟨404, .error "User not found"⟩)

/-- Handler of `PUT /users/:id/profile` (lines 48-61). -/
def putUsersIdProfile (s : Store) (id : String) (bio : Option String) : Outcome :=
  match prisma.profile.update s (parseInt id) bio with
  | .ok (s1, profile) => (s1, some ⟨200, .profile profile⟩)
  | .error _ => (s, some ⟨404, .error "Profile not found"⟩)

/-- Handler of `DELETE /users/:id` (lines 64-78): two separate calls, the
Profile first, then the User. -/
def deleteUsersId (ra : ReferentialAction) (s : Store) (id : String) : Outcome :=
  match prisma.profile.delete s (parseInt id) with
  | .error _ => (s, some ⟨404, .error "User not found"⟩)
  | .ok (s1, _) =>
    match prisma.user.delete ra s1 (parseInt id) with
    | .error _ => (s1, some ⟨404, .error "User not found"⟩)
    | .ok (s2, _) => (s2, some ⟨200, .message "User and profile deleted"⟩)

/-- Handler of `POST /users/:id/posts` (lines 83-100). -/
def postUsersIdPosts (s : Store) (id : String) (title content : Option String) : Outcome :=
  match prisma.post.create s title content (parseInt id) with
  | .ok (s1, post) => (s1, some ⟨201, .post post⟩)
  | .error e => (s, some ⟨400, .errorMessage e⟩)

/-- Handler of `GET /users/:id/posts` (lines 103-115). -/
def getUsersIdPosts (s : Store) (id : String) : Outcome :=
  match prisma.user.findUnique s (parseInt id) with
  | .ok (some user) => (s, some ⟨200, .userWithPosts user (includePosts s user)⟩)
  | .ok none => (s, some ⟨200, .null⟩)
  | .error _ => (s, some ⟨404, .error "User not found"⟩)

/-- Handler of `PUT /posts/:postId` (lines 118-131). -/
def putPostsPostId (s : Store) (postId : String) (title content : Option String) : Outcome :=
  match prisma.post.update s (parseInt postId) { title := title, content := content } with
  | .ok (s1, post) => (s1, some ⟨200, .post post⟩)
  | .error _ => (s, some ⟨404, .error "Post not found"⟩)

/-- Handler of `DELETE /posts/:postId` (lines 134-145). -/
def deletePostsPostId (s : Store) (postId : String) : Outcome :=
  match prisma.post.delete s (parseInt postId) with
  | .ok (s1, _) => (s1, some ⟨200, .message "Post deleted"⟩)
  | .error _ => (s, some ⟨404, .error "Post not found"⟩)

/-- Handler of `POST /posts/:id/categories` (lines 150-175): the upsert of the
Category and the update of the Post are two separate calls. -/
def postPostsIdCategories (s : Store) (id : String) (name : Option String) : Outcome :=
  match prisma.category.upsert s name with
  | .error e => (s, some ⟨400, .errorMessage e⟩)
  | .ok (s1, category) =>
    match prisma.post.update s1 (parseInt id) { connect := some [some category.id] } with
    | .error e => (s1, some ⟨400, .errorMessage e⟩)
    | .ok (s2, post) => (s2, some ⟨201, .postWithCategories post (includeCategories s2 post)⟩)

/-- Handler of `GET /posts/:id` (lines 178-190). -/
def getPostsId (s : Store) (id : String) : Outcome :=
  match prisma.post.findUnique s (parseInt id) with
  | .ok (some post) => (s, some ⟨200, .postWithCategories post (includeCategories s post)⟩)
  | .ok none => (s, some ⟨200, .null⟩)
  | .error _ => (s, some ⟨404, .error "Post not found"⟩)

/-- Handler of `PUT /posts/:postId/categories` (lines 192-207).  It has no
`try`: when the call rejects, the handler itself sends nothing and the promise
it returned is rejected.  What the client then gets is decided by the Express
release, which `src/app.js` does not fix (release 4 sends nothing, release 5
answers 500 through its default error handler), so it is the parameter
`unhandled`. -/
def putPostsPostIdCategories (unhandled : Option Response) (s : Store) (postId : String)
    (categoriesToAdd categoriesToRemove : Option (List Int)) : Outcome :=
  match prisma.post.update s (parseInt postId)
      { connect := categoriesToAdd.map (fun ids => ids.map (fun id => some id)),
        disconnect := categoriesToRemove.map (fun ids => ids.map (fun id => some id)) } with
  | .ok (s1, post) => (s1, some ⟨200, .postWithCategories post (includeCategories s1 post)⟩)
  | .error _ => (s, unhandled)

/-- Handler of `DELETE /posts/:postId/categories/:categoryId` (lines 211-228). -/
def deletePostsPostIdCategoriesCategoryId (s : Store) (postId categoryId : String) : Outcome :=
  match prisma.post.update s (parseInt postId) { disconnect := some [parseInt categoryId] } with
  | .ok (s1, post) => (s1, some ⟨200, .postWithCategories post (includeCategories s1 post)⟩)
  | .error _ => (s, some ⟨404, .error "Post or category not found"⟩)

/-- A request to one of the twelve routes: its path segments and body fields. -/
inductive Request where
  | postUsers (email name bio : Option String)
  | getUsersId (id : String)
  | putUsersIdProfile (id : String) (bio : Option String)
  | deleteUsersId (id : String)
  | postUsersIdPosts (id : String) (title content : Option String)
  | getUsersIdPosts (id : String)
  | putPostsPostId (postId : String) (title content : Option String)
  | deletePostsPostId (postId : String)
  | postPostsIdCategories (id : String) (name : Option String)
  | getPostsId (id : String)
  | putPostsPostIdCategories (postId : String) (categoriesToAdd categoriesToRemove : Option (List Int))
  | deletePostsPostIdCategoriesCategoryId (postId categoryId : String)
deriving DecidableEq, Repr

/-- The routing table of `app`: each request goes to its handler.  The
parameters are what `src/app.js` leaves to its surroundings: the referential
action of the schema and the answer of Express to a rejected handler. -/
def handle (ra : ReferentialAction) (unhandled : Option Response) (s : Store) :
    Request → Outcome
  | .postUsers email name bio => postUsers s email name bio
  | .getUsersId id => getUsersId s id
  | .putUsersIdProfile id bio => putUsersIdProfile s id bio
  | .deleteUsersId id => deleteUsersId ra s id
  | .postUsersIdPosts id title content => postUsersIdPosts s id title content
  | .getUsersIdPosts id => getUsersIdPosts s id
  | .putPostsPostId postId title content => putPostsPostId s postId title content
  | .deletePostsPostId postId => deletePostsPostId s postId
  | .postPostsIdCategories id name => postPostsIdCategories s id name
  | .getPostsId id => getPostsId s id
  | .putPostsPostIdCategories postId add del =>
    putPostsPostIdCategories unhandled s postId add del
  | .deletePostsPostIdCategoriesCategoryId postId categoryId =>
    deletePostsPostIdCategoriesCategoryId s postId categoryId

/-! ## Vocabulary of the specification -/

/-- The path id segments of a request, in the order of the route. -/
def Request.segments : Request → List String
  | .postUsers _ _ _ => []
  | .getUsersId id => [id]
  | .putUsersIdProfile id _ => [id]
  | .deleteUsersId id => [id]
  | .postUsersIdPosts id _ _ => [id]
  | .getUsersIdPosts id => [id]
  | .putPostsPostId postId _ _ => [postId]
  | .deletePostsPostId postId => [postId]
  | .postPostsIdCategories id _ => [id]
  | .getPostsId id => [id]
  | .putPostsPostIdCategories postId _ _ => [postId]
  | .deletePostsPostIdCategoriesCategoryId postId categoryId => [postId, categoryId]

/-- The same request with every path id segment rewritten by `f`. -/
def Request.mapSegments (f : String → String) : Request → Request
  | .postUsers email name bio => .postUsers email name bio
  | .getUsersId id => .getUsersId (f id)
  | .putUsersIdProfile id bio => .putUsersIdProfile (f id) bio
  | .deleteUsersId id => .deleteUsersId (f id)
  | .postUsersIdPosts id title content => .postUsersIdPosts (f id) title content
  | .getUsersIdPosts id => .getUsersIdPosts (f id)
  | .putPostsPostId postId title content => .putPostsPostId (f postId) title content
  | .deletePostsPostId postId => .deletePostsPostId (f postId)
  | .postPostsIdCategories id name => .postPostsIdCategories (f id) name
  | .getPostsId id => .getPostsId (f id)
  | .putPostsPostIdCategories postId add del => .putPostsPostIdCategories (f postId) add del
  | .deletePostsPostIdCategoriesCategoryId postId categoryId =>
    .deletePostsPostIdCategoriesCategoryId (f postId) (f categoryId)

/-- The status set in the `catch` block of the handler of a request, for the
eleven handlers that have one; the handler of `PUT /posts/:postId/categories`
has none. -/
def Request.catchStatus : Request → Option Nat
  | .postUsers _ _ _ => some 400
  | .getUsersId _ => some 404
  | .putUsersIdProfile _ _ => some 404
  | .deleteUsersId _ => some 404
  | .postUsersIdPosts _ _ _ => some 400
  | .getUsersIdPosts _ => some 404
  | .putPostsPostId _ _ _ => some 404
  | .deletePostsPostId _ => some 404
  | .postPostsIdCategories _ _ => some 400
  | .getPostsId _ => some 404
  | .putPostsPostIdCategories _ _ _ => none
  | .deletePostsPostIdCategoriesCategoryId _ _ => some 404

/-- Whether `c` is one of the decimal digits `0` to `9`. -/
def isDecimalDigit (c : Char) : Bool :=
  48 ≤ c.toNat && c.toNat ≤ 57

/-- The number written by a run of decimal digits. -/
def decimalValue (ds : List Char) : Nat :=
  ds.foldl (fun acc c => acc * 10 + (c.toNat - 48)) 0

/-- The predicate on the store that the one-to-one relation asks for: every
Profile's `userId` references an existing User, and no two Profiles share a
`userId`. -/
def ProfileInv (s : Store) : Prop :=
  (∀ p ∈ s.profiles, ∃ u ∈ s.users, u.id = p.userId) ∧
  (s.profiles.map (fun p => p.userId)).Nodup

instance (s : Store) : Decidable (ProfileInv s) :=
  inferInstanceAs (Decidable ((∀ p ∈ s.profiles, ∃ u ∈ s.users, u.id = p.userId) ∧
    (s.profiles.map (fun (p : Profile) => p.userId)).Nodup))

/-- A small store used for the concrete runs: Ann (user 1) has a Profile and
the Posts 1 and 12, Bob (user 2) has no Profile, the Categories 3 and 4 exist
and only Post 12 is linked (to Category 3). -/
def sampleStore : Store :=
  { users := [⟨1, "ann@example.org", some "Ann"⟩, ⟨2, "bob@example.org", some "Bob"⟩]
    profiles := [⟨1, some "hello", 1⟩]
    posts := [⟨1, some "first", some "text", some 1⟩, ⟨12, some "second", none, some 1⟩]
    categories := [⟨3, "tech"⟩, ⟨4, "news"⟩]
    postCategories := [(12, 3)] }

/-! ## Lemmas on `parseInt` -/

theorem digitValue_of_decimal (radix : Nat) (c : Char) (h : isDecimalDigit c = true) :
    digitValue radix c = some (c.toNat - 48) := by
  simp only [isDecimalDigit, Bool.and_eq_true, decide_eq_true_eq] at h
  simp [digitValue, h.1, h.2]

theorem digitValue_ten_of_not_decimal (c : Char) (h : isDecimalDigit c = false) :
    digitValue 10 c = none := by
  simp only [isDecimalDigit] at h
  simp only [digitValue]
  rw [if_neg (by simpa using h)]
  simp

theorem readDigits_ten_of_head (rest : List Char)
    (h : ∀ c, rest.head? = some c → isDecimalDigit c = false) : readDigits 10 rest = [] := by
  cases rest with
  | nil => rfl
  | cons c cs => simp [readDigits, digitValue_ten_of_not_decimal c (h c rfl)]

theorem readDigits_decimal_append (ds rest : List Char)
    (hds : ∀ c ∈ ds, isDecimalDigit c = true)
    (hrest : ∀ c, rest.head? = some c → isDecimalDigit c = false) :
    readDigits 10 (ds ++ rest) = ds.map (fun c => c.toNat - 48) := by
  induction ds with
  | nil => simpa using readDigits_ten_of_head rest hrest
  | cons d ds ih =>
    have hd := digitValue_of_decimal 10 d (hds d (by simp))
    have ih1 := ih (fun c hc => hds c (List.mem_cons_of_mem _ hc))
    simp only [List.cons_append, readDigits, hd, List.map_cons]
    exact congrArg _ ih1

theorem not_white_of_decimal (c : Char) (h : isDecimalDigit c = true) :
    isStrWhiteSpaceChar c = false := by
  simp only [isDecimalDigit, Bool.and_eq_true, decide_eq_true_eq] at h
  simp only [isStrWhiteSpaceChar, Bool.or_eq_false_iff, beq_eq_false_iff_ne, ne_eq,
    Bool.and_eq_false_imp, decide_eq_true_eq, decide_eq_false_iff_not]
  omega

theorem readSign_of_plain (c : Char) (rest : List Char) (hm : c ≠ '-') (hp : c ≠ '+') :
    readSign (c :: rest) = (1, c :: rest) := by
  unfold readSign
  split
  · next r heq => simp only [List.cons.injEq] at heq; exact absurd heq.1 hm
  · next r heq => simp only [List.cons.injEq] at heq; exact absurd heq.1 hp
  · rfl

theorem readRadix_of_plain (c : Char) (rest : List Char)
    (hx : c = '0' → ∀ e t, rest = e :: t → e ≠ 'x' ∧ e ≠ 'X') :
    readRadix (c :: rest) = (10, c :: rest) := by
  unfold readRadix
  split
  · next r heq =>
    simp only [List.cons.injEq] at heq
    exact absurd rfl (hx heq.1 _ _ heq.2).1
  · next r heq =>
    simp only [List.cons.injEq] at heq
    exact absurd rfl (hx heq.1 _ _ heq.2).2
  · rfl

theorem parseInt_of_plain (c : Char) (rest : List Char)
    (hw : isStrWhiteSpaceChar c = false) (hm : c ≠ '-') (hp : c ≠ '+')
    (hx : c = '0' → ∀ e t, rest = e :: t → e ≠ 'x' ∧ e ≠ 'X') :
    parseInt (String.mk (c :: rest)) =
      match readDigits 10 (c :: rest) with
      | [] => none
      | ds => some (((ds.foldl (fun acc d => acc * 10 + d) 0 : Nat) : Int)) := by
  unfold parseInt
  have hdrop : (String.mk (c :: rest)).toList.dropWhile isStrWhiteSpaceChar = c :: rest := by
    simp [List.dropWhile_cons, hw]
  simp only [hdrop, readSign_of_plain c rest hm hp, readRadix_of_plain c rest hx, one_mul]

theorem decimal_bounds (c : Char) (h : isDecimalDigit c = true) :
    48 ≤ c.toNat ∧ c.toNat ≤ 57 := by
  simpa [isDecimalDigit] using h

theorem foldl_digits_eq_decimalValue (ds : List Char) :
    (ds.map (fun c => c.toNat - 48)).foldl (fun acc d => acc * 10 + d) 0 = decimalValue ds := by
  unfold decimalValue
  rw [List.foldl_map]

/-- A run of decimal digits followed by something that does not go on with a
digit decodes to the number the run writes. -/
theorem parseInt_decimal_append (ds rest : List Char) (hne : ds ≠ [])
    (hds : ∀ c ∈ ds, isDecimalDigit c = true)
    (hrest : ∀ c, rest.head? = some c → isDecimalDigit c = false)
    (hhex : ds = ['0'] → ∀ c, rest.head? = some c → c ≠ 'x' ∧ c ≠ 'X') :
    parseInt (String.mk (ds ++ rest)) = some ((decimalValue ds : Nat) : Int) := by
  cases ds with
  | nil => exact absurd rfl hne
  | cons d ds1 =>
    have hd := decimal_bounds d (hds d (by simp))
    have hm : d ≠ '-' := by
      intro h; subst h; revert hd; decide
    have hp : d ≠ '+' := by
      intro h; subst h; revert hd; decide
    have hx : d = '0' → ∀ e t, ds1 ++ rest = e :: t → e ≠ 'x' ∧ e ≠ 'X' := by
      intro h0 e t het
      cases ds1 with
      | nil =>
        simp only [List.nil_append] at het
        exact hhex (by rw [h0]) e (by rw [het]; rfl)
      | cons d2 ds2 =>
        simp only [List.cons_append, List.cons.injEq] at het
        have he := decimal_bounds d2 (hds d2 (by simp))
        rw [het.1] at he
        constructor
        · intro h; subst h; revert he; decide
        · intro h; subst h; revert he; decide
    have hmain := parseInt_of_plain d (ds1 ++ rest) (not_white_of_decimal d (hds d (by simp)))
      hm hp hx
    rw [List.cons_append, hmain]
    have hread := readDigits_decimal_append (d :: ds1) rest hds hrest
    rw [List.cons_append] at hread
    rw [hread]
    simp only [List.map_cons]
    exact congrArg (fun n : Nat => some (n : Int)) (foldl_digits_eq_decimalValue (d :: ds1))

/-- A segment that starts with a character that is neither white space, nor a
sign, nor a decimal digit decodes to `NaN`, and so does the empty segment. -/
theorem parseInt_nan_of_head (cs : List Char)
    (h : ∀ c, cs.head? = some c →
      isStrWhiteSpaceChar c = false ∧ c ≠ '-' ∧ c ≠ '+' ∧ isDecimalDigit c = false) :
    parseInt (String.mk cs) = none := by
  cases cs with
  | nil => rfl
  | cons c rest =>
    obtain ⟨hw, hm, hp, hd⟩ := h c rfl
    have hx : c = '0' → ∀ e t, rest = e :: t → e ≠ 'x' ∧ e ≠ 'X' := by
      intro h0; subst h0; exact absurd hd (by decide)
    rw [parseInt_of_plain c rest hw hm hp hx]
    simp [readDigits, digitValue_ten_of_not_decimal c hd]

/-! ## Lemmas on the join table -/

theorem mem_connectLinks (p : Int) (ids : List Int) (links : List (Int × Int)) (x : Int × Int) :
    x ∈ connectLinks p ids links ↔ x ∈ links ∨ (x.1 = p ∧ x.2 ∈ ids) := by
  unfold connectLinks
  induction ids generalizing links with
  | nil => simp
  | cons c cs ih =>
    rw [List.foldl_cons, ih]
    by_cases hmem : (p, c) ∈ links
    · rw [if_pos hmem]
      constructor
      · rintro (h | ⟨h1, h2⟩)
        · exact Or.inl h
        · exact Or.inr ⟨h1, List.mem_cons_of_mem _ h2⟩
      · rintro (h | ⟨h1, h2⟩)
        · exact Or.inl h
        · rcases List.mem_cons.1 h2 with h2 | h2
          · left
            have : x = (p, c) := Prod.ext h1 h2
            rw [this]; exact hmem
          · exact Or.inr ⟨h1, h2⟩
    · rw [if_neg hmem]
      simp only [List.mem_append, List.mem_singleton, List.mem_cons, List.not_mem_nil, or_false]
      constructor
      · rintro ((h | h) | ⟨h1, h2⟩)
        · exact Or.inl h
        · subst h; exact Or.inr ⟨rfl, Or.inl rfl⟩
        · exact Or.inr ⟨h1, Or.inr h2⟩
      · rintro (h | ⟨h1, h2 | h2⟩)
        · exact Or.inl (Or.inl h)
        · exact Or.inl (Or.inr (Prod.ext h1 h2))
        · exact Or.inr ⟨h1, h2⟩

theorem nodup_connectLinks (p : Int) (ids : List Int) (links : List (Int × Int))
    (h : links.Nodup) : (connectLinks p ids links).Nodup := by
  unfold connectLinks
  induction ids generalizing links with
  | nil => simpa using h
  | cons c cs ih =>
    rw [List.foldl_cons]
    apply ih
    by_cases hmem : (p, c) ∈ links
    · rw [if_pos hmem]; exact h
    · rw [if_neg hmem]
      rw [List.nodup_append]
      refine ⟨h, List.nodup_singleton _, ?_⟩
      intro a ha hb
      rw [List.mem_singleton] at hb
      subst hb
      exact hmem ha

theorem mem_disconnectLinks (p : Int) (ids : List Int) (links : List (Int × Int)) (x : Int × Int) :
    x ∈ disconnectLinks p ids links ↔ x ∈ links ∧ ¬ (x.1 = p ∧ x.2 ∈ ids) := by
  unfold disconnectLinks
  simp only [List.mem_filter, Bool.not_eq_true', Bool.and_eq_false_imp, beq_iff_eq,
    decide_eq_false_iff_not, and_congr_right_iff]
  intro _
  tauto

theorem nodup_disconnectLinks (p : Int) (ids : List Int) (links : List (Int × Int))
    (h : links.Nodup) : (disconnectLinks p ids links).Nodup :=
  h.filter _

theorem disconnectLinks_nil (p : Int) (links : List (Int × Int)) :
    disconnectLinks p [] links = links := by
  unfold disconnectLinks
  simp

theorem connectLinks_of_mem (p c : Int) (links : List (Int × Int)) (h : (p, c) ∈ links) :
    connectLinks p [c] links = links := by
  simp [connectLinks, h]

theorem disconnectLinks_eq_self (i : Int) (ids : List Int) (links : List (Int × Int))
    (h : ∀ c ∈ ids, (i, c) ∉ links) : disconnectLinks i ids links = links := by
  unfold disconnectLinks
  rw [List.filter_eq_self]
  rintro ⟨a, b⟩ hab
  by_cases ha : a = i
  · subst ha
    have : b ∉ ids := fun hb => h b hb hab
    simp [this]
  · simp [ha]

theorem filter_eq_singleton (l : List Int) (a : Int) (hnd : l.Nodup) (ha : a ∈ l) :
    l.filter (fun x => x == a) = [a] := by
  rw [List.filter_beq, List.count_eq_one_of_mem hnd ha]
  rfl

/-! ## Lemmas on the Prisma Client calls -/

theorem setFields_of_none (data : PostUpdateData) (h1 : data.title = none)
    (h2 : data.content = none) (p : Post) : data.setFields p = p := by
  cases p
  simp [PostUpdateData.setFields, h1, h2]

theorem map_setFields_of_none (data : PostUpdateData) (h1 : data.title = none)
    (h2 : data.content = none) (i : Int) (posts : List Post) :
    posts.map (fun q => if q.id == i then data.setFields q else q) = posts := by
  conv_rhs => rw [← List.map_id posts]
  apply List.map_congr_left
  intro q _
  simp [setFields_of_none data h1 h2]

theorem find?_post_of_exists {s : Store} {p : Int} (h : ∃ post ∈ s.posts, post.id = p) :
    ∃ q, s.posts.find? (fun x => x.id == p) = some q ∧ q.id = p := by
  obtain ⟨post0, hmem, hid⟩ := h
  cases hf : s.posts.find? (fun q => q.id == p) with
  | none =>
    rw [List.find?_eq_none] at hf
    exact absurd (by simp [hid]) (hf post0 hmem)
  | some post => exact ⟨post, rfl, by simpa using List.find?_some hf⟩

theorem post_update_links (s : Store) (i : Int) (q : Post) (A R : Option (List Int))
    (hq : s.posts.find? (fun x => x.id == i) = some q)
    (hA : ∀ c ∈ A.getD [], ∃ k ∈ s.categories, k.id = c) :
    prisma.post.update s (some i)
        { connect := A.map (fun ids => ids.map (fun id => some id)),
          disconnect := R.map (fun ids => ids.map (fun id => some id)) } =
      .ok ({ s with postCategories :=
              disconnectLinks i (R.getD []) (connectLinks i (A.getD []) s.postCategories) }, q) := by
  have hany : ∀ X : Option (List Int),
      ((X.map (fun ids => ids.map (fun id => some id))).getD []).any Option.isNone = false := by
    intro X; cases X <;> simp
  have hfm : ∀ X : Option (List Int),
      ((X.map (fun ids => ids.map (fun id => some id))).getD []).filterMap (fun x => x)
        = X.getD [] := by
    intro X
    cases X with
    | none => simp
    | some l =>
      simp only [Option.map_some', Option.getD_some, List.filterMap_map]
      induction l with
      | nil => rfl
      | cons a l ih => simp [List.filterMap_cons, ih]
  have hall : ((A.getD []).all (fun c => s.categories.any (fun k => k.id == c))) = true := by
    rw [List.all_eq_true]
    intro c hc
    obtain ⟨k, hk, hid⟩ := hA c hc
    rw [List.any_eq_true]
    exact ⟨k, hk, by simp [hid]⟩
  unfold prisma.post.update
  simp only [hany, hfm, hq, hall, Bool.or_self, Bool.false_eq_true, if_false, if_true]
  rw [map_setFields_of_none _ rfl rfl, setFields_of_none _ rfl rfl]

theorem post_update_ok {s s1 : Store} {id : Option Int} {data : PostUpdateData} {p : Post}
    (h : prisma.post.update s id data = .ok (s1, p)) :
    ∃ i q, id = some i ∧ s.posts.find? (fun x => x.id == i) = some q ∧ p = data.setFields q ∧
      (∀ c ∈ (data.connect.getD []).filterMap (fun x => x), ∃ k ∈ s.categories, k.id = c) ∧
      s1 = { s with
        posts := s.posts.map (fun x => if x.id == i then data.setFields x else x)
        postCategories := disconnectLinks i ((data.disconnect.getD []).filterMap (fun x => x))
          (connectLinks i ((data.connect.getD []).filterMap (fun x => x)) s.postCategories) } := by
  unfold prisma.post.update at h
  cases id with
  | none => simp at h
  | some i =>
    simp only at h
    split at h
    · simp at h
    · cases hf : s.posts.find? (fun x => x.id == i) with
      | none => simp [hf] at h
      | some q =>
        simp only [hf] at h
        split at h
        · next hall =>
          simp only [Except.ok.injEq, Prod.mk.injEq] at h
          refine ⟨i, q, rfl, hf, h.2.symm, ?_, h.1.symm⟩
          intro c hc
          rw [List.all_eq_true] at hall
          simpa using hall c hc
        · simp at h

theorem post_update_frame {s s1 : Store} {id : Option Int} {data : PostUpdateData} {p : Post}
    (h : prisma.post.update s id data = .ok (s1, p)) :
    s1.users = s.users ∧ s1.profiles = s.profiles ∧ s1.categories = s.categories := by
  obtain ⟨i, q, -, -, -, -, rfl⟩ := post_update_ok h
  exact ⟨rfl, rfl, rfl⟩

theorem upsert_frame {s s1 : Store} {name : Option String} {c : Category}
    (h : prisma.category.upsert s name = .ok (s1, c)) :
    s1.users = s.users ∧ s1.profiles = s.profiles ∧ s1.posts = s.posts ∧
      s1.postCategories = s.postCategories := by
  unfold prisma.category.upsert at h
  cases name with
  | none => simp at h
  | some n =>
    simp only at h
    cases hf : s.categories.find? (fun c => c.name == n) with
    | none =>
      simp only [hf, Except.ok.injEq, Prod.mk.injEq] at h
      rw [← h.1]; exact ⟨rfl, rfl, rfl, rfl⟩
    | some k =>
      simp only [hf, Except.ok.injEq, Prod.mk.injEq] at h
      rw [← h.1]; exact ⟨rfl, rfl, rfl, rfl⟩

theorem post_create_frame {s s1 : Store} {t c : Option String} {id : Option Int} {p : Post}
    (h : prisma.post.create s t c id = .ok (s1, p)) :
    s1.users = s.users ∧ s1.profiles = s.profiles := by
  unfold prisma.post.create at h
  cases id with
  | none => simp at h
  | some i =>
    simp only at h
    split at h
    · simp only [Except.ok.injEq, Prod.mk.injEq] at h
      rw [← h.1]; exact ⟨rfl, rfl⟩
    · simp at h

theorem post_delete_frame {s s1 : Store} {id : Option Int} {p : Post}
    (h : prisma.post.delete s id = .ok (s1, p)) :
    s1.users = s.users ∧ s1.profiles = s.profiles := by
  unfold prisma.post.delete at h
  cases id with
  | none => simp at h
  | some i =>
    simp only at h
    cases hf : s.posts.find? (fun p => p.id == i) with
    | none => simp [hf] at h
    | some q =>
      simp only [hf, Except.ok.injEq, Prod.mk.injEq] at h
      rw [← h.1]; exact ⟨rfl, rfl⟩

theorem post_update_nan (s : Store) (data : PostUpdateData) :
    prisma.post.update s none data = .error .validation := rfl

theorem post_update_nan_disconnect (s : Store) (id : Option Int) :
    prisma.post.update s id { disconnect := some [none] } = .error .validation := by
  cases id <;> simp [prisma.post.update]

theorem upsert_of_found (s : Store) (n : String) (c : Category)
    (h : s.categories.find? (fun k => k.name == n) = some c) :
    prisma.category.upsert s (some n) = .ok (s, c) := by
  simp [prisma.category.upsert, h]

/-! ## Lemmas on the handlers -/

theorem attach_of_upsert (s s1 : Store) (seg : String) (p : Int) (n : String) (c : Category)
    (q : Post) (hseg : parseInt seg = some p)
    (hup : prisma.category.upsert s (some n) = .ok (s1, c)) (hc : c ∈ s1.categories)
    (hq : s1.posts.find? (fun x => x.id == p) = some q) :
    postPostsIdCategories s seg (some n) =
      ({ s1 with postCategories := connectLinks p [c.id] s1.postCategories },
        some ⟨201, .postWithCategories q (includeCategories
          { s1 with postCategories := connectLinks p [c.id] s1.postCategories } q)⟩) := by
  have hupd := post_update_links s1 p q (some [c.id]) none hq
    (by intro x hx; simp at hx; exact ⟨c, hc, hx.symm⟩)
  simp only [Option.getD_some, Option.getD_none, disconnectLinks_nil, Option.map_some',
    Option.map_none', List.map_cons, List.map_nil] at hupd
  simp only [postPostsIdCategories, hup, hseg, hupd]

theorem attach_fixed (s : Store) (seg : String) (p : Int) (n : String) (c : Category) (q : Post)
    (hseg : parseInt seg = some p)
    (hc : s.categories.find? (fun k => k.name == n) = some c)
    (hq : s.posts.find? (fun x => x.id == p) = some q) (hl : (p, c.id) ∈ s.postCategories) :
    postPostsIdCategories s seg (some n) =
      (s, some ⟨201, .postWithCategories q (includeCategories s q)⟩) := by
  rw [attach_of_upsert s s seg p n c q hseg (upsert_of_found s n c hc)
    (List.mem_of_find?_eq_some hc) hq, connectLinks_of_mem p c.id _ hl]

theorem attach_first (s : Store) (seg : String) (p : Int) (n : String)
    (hseg : parseInt seg = some p) (hpost : ∃ post ∈ s.posts, post.id = p)
    (hnames : (s.categories.map (fun k => k.name)).Nodup) (hlinks : s.postCategories.Nodup) :
    ∃ s1 c q, postPostsIdCategories s seg (some n) =
        (s1, some ⟨201, .postWithCategories q (includeCategories s1 q)⟩) ∧
      s1.categories.find? (fun k => k.name == n) = some c ∧
      s1.posts.find? (fun x => x.id == p) = some q ∧ q.id = p ∧
      (p, c.id) ∈ s1.postCategories ∧
      (s1.categories.map (fun k => k.name)).Nodup ∧ s1.postCategories.Nodup := by
  obtain ⟨q, hq, hqid⟩ := find?_post_of_exists hpost
  cases hf : s.categories.find? (fun k => k.name == n) with
  | some c =>
    refine ⟨_, c, q, attach_of_upsert s s seg p n c q hseg (upsert_of_found s n c hf)
      (List.mem_of_find?_eq_some hf) hq, hf, hq, hqid, ?_, hnames, ?_⟩
    · simp [mem_connectLinks]
    · exact nodup_connectLinks _ _ _ hlinks
  | none =>
    have hup : prisma.category.upsert s (some n) =
        .ok ({ s with categories := s.categories ++
          [⟨nextId (s.categories.map (fun k => k.id)), n⟩] },
          ⟨nextId (s.categories.map (fun k => k.id)), n⟩) := by
      simp [prisma.category.upsert, hf]
    refine ⟨_, ⟨nextId (s.categories.map (fun k => k.id)), n⟩, q,
      attach_of_upsert s _ seg p n _ q hseg hup (by simp) hq, ?_, hq, hqid, ?_, ?_, ?_⟩
    · simp [List.find?_append, hf]
    · simp [mem_connectLinks]
    · simp only [List.map_append, List.map_cons, List.map_nil]
      rw [List.nodup_append]
      refine ⟨hnames, List.nodup_singleton _, ?_⟩
      intro a ha hb
      rw [List.mem_singleton] at hb
      subst hb
      rw [List.find?_eq_none] at hf
      obtain ⟨k, hk, hkn⟩ := List.mem_map.1 ha
      exact hf k hk (by simp [hkn])
    · exact nodup_connectLinks _ _ _ hlinks

theorem detach_of_unlinked (s : Store) (postId categoryId : String) (p c : Int) (q : Post)
    (hp : parseInt postId = some p) (hc : parseInt categoryId = some c)
    (hq : s.posts.find? (fun x => x.id == p) = some q) (hlink : (p, c) ∉ s.postCategories) :
    deletePostsPostIdCategoriesCategoryId s postId categoryId =
      (s, some ⟨200, .postWithCategories q (includeCategories s q)⟩) := by
  have hupd := post_update_links s p q none (some [c]) hq (by simp)
  simp only [Option.getD_some, Option.getD_none, Option.map_some',
    Option.map_none', List.map_cons, List.map_nil] at hupd
  have hdis : disconnectLinks p [c] (connectLinks p [] s.postCategories) = s.postCategories :=
    disconnectLinks_eq_self p [c] _ (by simpa [connectLinks] using hlink)
  rw [hdis] at hupd
  simp only [deletePostsPostIdCategoriesCategoryId, hp, hc, hupd]

theorem profileInv_postUsers (s : Store) (email name bio : Option String) (h : ProfileInv s) :
    ProfileInv (postUsers s email name bio).1 := by
  unfold postUsers prisma.user.create
  cases email with
  | none => exact h
  | some e =>
    simp only
    by_cases h1 : s.users.any (fun u => u.email == e) = true
    · rw [if_pos h1]; exact h
    · rw [if_neg h1]
      by_cases h2 : s.profiles.any (fun p => p.userId == nextId (s.users.map (fun u => u.id))) = true
      · rw [if_pos h2]; exact h
      · rw [if_neg h2]
        obtain ⟨href, hnd⟩ := h
        constructor
        · intro p hp
          simp only [List.mem_append, List.mem_singleton] at hp
          rcases hp with hp | hp
          · obtain ⟨u, hu, hid⟩ := href p hp
            exact ⟨u, by simp [hu], hid⟩
          · subst hp
            exact ⟨⟨nextId (s.users.map (fun u => u.id)), e, name⟩, by simp, rfl⟩
        · simp only [List.map_append, List.map_cons, List.map_nil]
          rw [List.nodup_append]
          refine ⟨hnd, by simp, ?_⟩
          simp only [List.any_eq_true, not_exists, not_and] at h2
          intro a ha
          simp only [List.mem_map] at ha
          obtain ⟨p, hp, rfl⟩ := ha
          simpa using h2 p hp

theorem profileInv_putUsersIdProfile (s : Store) (id : String) (bio : Option String)
    (h : ProfileInv s) : ProfileInv (putUsersIdProfile s id bio).1 := by
  unfold putUsersIdProfile prisma.profile.update
  cases parseInt id with
  | none => exact h
  | some i =>
    simp only
    cases hf : s.profiles.find? (fun p => p.userId == i) with
    | none => exact h
    | some pr =>
      simp only
      obtain ⟨href, hnd⟩ := h
      have hmap : (s.profiles.map (fun q => if (q.userId == i) = true then setBio bio q else q)).map
          (fun p => p.userId) = s.profiles.map (fun p => p.userId) := by
        rw [List.map_map]
        apply List.map_congr_left
        intro q _
        simp only [Function.comp]
        split <;> rfl
      constructor
      · intro p hp
        simp only [List.mem_map] at hp
        obtain ⟨q, hq, rfl⟩ := hp
        obtain ⟨u, hu, hid⟩ := href q hq
        refine ⟨u, hu, ?_⟩
        rw [hid]
        split <;> rfl
      · show (List.map (fun p => p.userId) (s.profiles.map
          (fun q => if (q.userId == i) = true then setBio bio q else q))).Nodup
        rw [hmap]; exact hnd

theorem profileInv_deleteUsersId (ra : ReferentialAction) (s : Store) (id : String)
    (h : ProfileInv s) : ProfileInv (deleteUsersId ra s id).1 := by
  obtain ⟨href, hnd⟩ := h
  unfold deleteUsersId prisma.profile.delete
  cases parseInt id with
  | none => exact ⟨href, hnd⟩
  | some i =>
    simp only
    cases hf : s.profiles.find? (fun p => p.userId == i) with
    | none => exact ⟨href, hnd⟩
    | some pr =>
      have hnd1 : ((s.profiles.filter (fun q => !(q.userId == i))).map (fun p => p.userId)).Nodup :=
        ((List.filter_sublist _).map _).nodup hnd
      have hfil : ∀ p ∈ s.profiles.filter (fun q => !(q.userId == i)),
          p ∈ s.profiles ∧ p.userId ≠ i := by
        intro p hp
        simpa using hp
      have hkeep : ∀ p ∈ s.profiles.filter (fun q => !(q.userId == i)),
          ∃ u ∈ s.users.filter (fun v => !(v.id == i)), u.id = p.userId := by
        intro p hp
        obtain ⟨hp1, hp2⟩ := hfil p hp
        obtain ⟨u, hu, hid⟩ := href p hp1
        exact ⟨u, by simp [hu, hid, hp2], hid⟩
      simp only [prisma.user.delete]
      cases hu : s.users.find? (fun u => u.id == i) with
      | none => exact ⟨fun p hp => href p (hfil p hp).1, hnd1⟩
      | some u =>
        cases ra with
        | restrict =>
          simp only
          by_cases hposts : s.posts.any (fun p => p.userId == some i) = true
          · rw [if_pos hposts]
            exact ⟨fun p hp => href p (hfil p hp).1, hnd1⟩
          · rw [if_neg hposts]
            exact ⟨hkeep, hnd1⟩
        | cascade => exact ⟨hkeep, hnd1⟩
        | setNull => exact ⟨hkeep, hnd1⟩

theorem users_profiles_frame (ra : ReferentialAction) (unhandled : Option Response) (s : Store) (req : Request)
    (h1 : ∀ e n b, req ≠ .postUsers e n b) (h2 : ∀ i b, req ≠ .putUsersIdProfile i b)
    (h3 : ∀ i, req ≠ .deleteUsersId i) :
    (handle ra unhandled s req).1.users = s.users ∧ (handle ra unhandled s req).1.profiles = s.profiles := by
  cases req with
  | postUsers e n b => exact absurd rfl (h1 e n b)
  | putUsersIdProfile i b => exact absurd rfl (h2 i b)
  | deleteUsersId i => exact absurd rfl (h3 i)
  | getUsersId id =>
    simp only [handle, getUsersId]; split <;> exact ⟨rfl, rfl⟩
  | getUsersIdPosts id =>
    simp only [handle, getUsersIdPosts]; split <;> exact ⟨rfl, rfl⟩
  | getPostsId id =>
    simp only [handle, getPostsId]; split <;> exact ⟨rfl, rfl⟩
  | postUsersIdPosts id t c =>
    simp only [handle, postUsersIdPosts]
    split
    · next s1 p h => exact post_create_frame h
    · exact ⟨rfl, rfl⟩
  | putPostsPostId id t c =>
    simp only [handle, putPostsPostId]
    split
    · next s1 p h => exact ⟨(post_update_frame h).1, (post_update_frame h).2.1⟩
    · exact ⟨rfl, rfl⟩
  | deletePostsPostId id =>
    simp only [handle, deletePostsPostId]
    split
    · next s1 p h => exact post_delete_frame h
    · exact ⟨rfl, rfl⟩
  | postPostsIdCategories id name =>
    simp only [handle, postPostsIdCategories]
    split
    · exact ⟨rfl, rfl⟩
    · next s1 c h =>
      have hs1 := upsert_frame h
      split
      · exact ⟨hs1.1, hs1.2.1⟩
      · next s2 p h2 =>
        have hs2 := post_update_frame h2
        exact ⟨hs2.1.trans hs1.1, hs2.2.1.trans hs1.2.1⟩
  | putPostsPostIdCategories id a d =>
    simp only [handle, putPostsPostIdCategories]
    split
    · next s1 p h => exact ⟨(post_update_frame h).1, (post_update_frame h).2.1⟩
    · exact ⟨rfl, rfl⟩
  | deletePostsPostIdCategoriesCategoryId id cid =>
    simp only [handle, deletePostsPostIdCategoriesCategoryId]
    split
    · next s1 p h => exact ⟨(post_update_frame h).1, (post_update_frame h).2.1⟩
    · exact ⟨rfl, rfl⟩

theorem ProfileInv.of_eq {s t : Store} (h : ProfileInv s) (hu : t.users = s.users)
    (hp : t.profiles = s.profiles) : ProfileInv t := by
  unfold ProfileInv at *
  rw [hu, hp]; exact h

theorem handle_congr (ra : ReferentialAction) (unhandled : Option Response) (s : Store) (req : Request) (f : String → String)
    (hf : ∀ seg, parseInt (f seg) = parseInt seg) :
    handle ra unhandled s (req.mapSegments f) = handle ra unhandled s req := by
  cases req <;>
    simp only [Request.mapSegments, handle, getUsersId, putUsersIdProfile, deleteUsersId,
      postUsersIdPosts, getUsersIdPosts, putPostsPostId, deletePostsPostId, postPostsIdCategories,
      getPostsId, putPostsPostIdCategories, deletePostsPostIdCategoriesCategoryId, hf]

theorem handle_nan (ra : ReferentialAction) (unhandled : Option Response) (s : Store)
    (req : Request) (h : ∃ seg ∈ req.segments, parseInt seg = none) :
    (∀ st, req.catchStatus = some st →
      (handle ra unhandled s req).2.map (fun r => r.status) = some st) ∧
    (handle ra unhandled s req).1.users = s.users ∧
    (handle ra unhandled s req).1.profiles = s.profiles ∧
    (handle ra unhandled s req).1.posts = s.posts ∧
    (handle ra unhandled s req).1.postCategories = s.postCategories ∧
    ((∀ id name, req ≠ .postPostsIdCategories id name) →
      (handle ra unhandled s req).1 = s) := by
  obtain ⟨seg, hmem, hnan⟩ := h
  cases req with
  | postUsers e n b => simp [Request.segments] at hmem
  | getUsersId id =>
    simp only [Request.segments, List.mem_singleton] at hmem; subst hmem
    simp [handle, getUsersId, prisma.user.findUnique, hnan, Request.catchStatus]
  | putUsersIdProfile id bio =>
    simp only [Request.segments, List.mem_singleton] at hmem; subst hmem
    simp [handle, putUsersIdProfile, prisma.profile.update, hnan, Request.catchStatus]
  | deleteUsersId id =>
    simp only [Request.segments, List.mem_singleton] at hmem; subst hmem
    simp [handle, deleteUsersId, prisma.profile.delete, hnan, Request.catchStatus]
  | postUsersIdPosts id t c =>
    simp only [Request.segments, List.mem_singleton] at hmem; subst hmem
    simp [handle, postUsersIdPosts, prisma.post.create, hnan, Request.catchStatus]
  | getUsersIdPosts id =>
    simp only [Request.segments, List.mem_singleton] at hmem; subst hmem
    simp [handle, getUsersIdPosts, prisma.user.findUnique, hnan, Request.catchStatus]
  | putPostsPostId id t c =>
    simp only [Request.segments, List.mem_singleton] at hmem; subst hmem
    simp [handle, putPostsPostId, post_update_nan, hnan, Request.catchStatus]
  | deletePostsPostId id =>
    simp only [Request.segments, List.mem_singleton] at hmem; subst hmem
    simp [handle, deletePostsPostId, prisma.post.delete, hnan, Request.catchStatus]
  | postPostsIdCategories id name =>
    simp only [Request.segments, List.mem_singleton] at hmem; subst hmem
    cases hup : prisma.category.upsert s name with
    | error e => simp [handle, postPostsIdCategories, hup, Request.catchStatus]
    | ok r =>
      obtain ⟨s1, c⟩ := r
      have hfr := upsert_frame hup
      simp [handle, postPostsIdCategories, hup, post_update_nan, hnan, Request.catchStatus, hfr]
  | getPostsId id =>
    simp only [Request.segments, List.mem_singleton] at hmem; subst hmem
    simp [handle, getPostsId, prisma.post.findUnique, hnan, Request.catchStatus]
  | putPostsPostIdCategories id a d =>
    simp only [Request.segments, List.mem_singleton] at hmem; subst hmem
    simp [handle, putPostsPostIdCategories, post_update_nan, hnan, Request.catchStatus]
  | deletePostsPostIdCategoriesCategoryId id cid =>
    simp only [Request.segments, List.mem_cons, List.mem_singleton, List.not_mem_nil,
      or_false] at hmem
    rcases hmem with hmem | hmem
    · subst hmem
      simp [handle, deletePostsPostIdCategoriesCategoryId, post_update_nan, hnan,
        Request.catchStatus]
    · subst hmem
      simp [handle, deletePostsPostIdCategoriesCategoryId, post_update_nan_disconnect, hnan,
        Request.catchStatus]

/-! ## The claims -/

/-- Claim C1: on a store whose Category names and join rows are unique, as the
store keeps them, running the `POST /posts/:id/categories` handler twice with
the same existing post and the same name answers 201 both times with the same
post and the same duplicate-free category list, in which exactly one entry has
that name; the second call leaves the store of the first call as it is, with
exactly one Category row of that name and exactly one join row between the
post and that category. -/
theorem attach_same_category_twice (s : Store) (seg : String) (p : Int) (n : String)
    (hseg : parseInt seg = some p) (hpost : ∃ post ∈ s.posts, post.id = p)
    (hnames : (s.categories.map (fun k => k.name)).Nodup) (hlinks : s.postCategories.Nodup) :
    ∃ post cats c,
      (postPostsIdCategories s seg (some n)).2 = some ⟨201, .postWithCategories post cats⟩ ∧
      (postPostsIdCategories (postPostsIdCategories s seg (some n)).1 seg (some n)).2 =
        some ⟨201, .postWithCategories post cats⟩ ∧
      (postPostsIdCategories (postPostsIdCategories s seg (some n)).1 seg (some n)).1 =
        (postPostsIdCategories s seg (some n)).1 ∧
      post.id = p ∧ cats.Nodup ∧ c ∈ cats ∧ c.name = n ∧
      cats.countP (fun k => k.name == n) = 1 ∧
      (postPostsIdCategories (postPostsIdCategories s seg (some n)).1 seg (some n)).1.categories.countP
        (fun k => k.name == n) = 1 ∧
      (postPostsIdCategories (postPostsIdCategories s seg (some n)).1 seg
        (some n)).1.postCategories.countP (fun l => decide (l = (p, c.id))) = 1 := by
  obtain ⟨s1, c, q, h1, hc, hq, hqid, hl, hnd, hlnd⟩ := attach_first s seg p n hseg hpost hnames hlinks
  have h2 := attach_fixed s1 seg p n c q hseg hc hq hl
  have hcmem : c ∈ s1.categories := List.mem_of_find?_eq_some hc
  have hcn : c.name = n := by simpa using List.find?_some hc
  have hcount : ∀ l : List Category, (l.map (fun k => k.name)).Nodup → c ∈ l →
      l.countP (fun k => k.name == n) = 1 := by
    intro l hl1 hl2
    have : (l.map (fun k => k.name)).count n = 1 :=
      List.count_eq_one_of_mem hl1 (List.mem_map.2 ⟨c, hl2, hcn⟩)
    rw [List.count, List.countP_map] at this
    exact this
  have hcin : c ∈ includeCategories s1 q := by
    simp [includeCategories, hcmem, hqid, hl]
  have hsub : (includeCategories s1 q).Sublist s1.categories := List.filter_sublist _
  refine ⟨q, includeCategories s1 q, c, ?_, ?_, ?_, hqid, ?_, hcin, hcn, ?_, ?_, ?_⟩
  · rw [h1]
  · rw [h1]; simp only; rw [h2]
  · rw [h1]; simp only; rw [h2]
  · exact (hsub.map _ |>.nodup hnd).of_map _
  · exact hcount _ (hsub.map _ |>.nodup hnd) hcin
  · rw [h1]; simp only; rw [h2]
    exact hcount _ hnd hcmem
  · rw [h1]; simp only; rw [h2]
    exact List.count_eq_one_of_mem hlnd hl

theorem attach_same_category_twice_witness :
    parseInt "1" = some 1 ∧ (∃ post ∈ sampleStore.posts, post.id = 1) ∧
    (sampleStore.categories.map (fun k => k.name)).Nodup ∧ sampleStore.postCategories.Nodup ∧
    ∃ post cats c,
      (postPostsIdCategories sampleStore "1" (some "tech")).2 =
        some ⟨201, .postWithCategories post cats⟩ ∧
      (postPostsIdCategories (postPostsIdCategories sampleStore "1" (some "tech")).1 "1"
        (some "tech")).2 = some ⟨201, .postWithCategories post cats⟩ ∧
      (postPostsIdCategories (postPostsIdCategories sampleStore "1" (some "tech")).1 "1"
        (some "tech")).1 = (postPostsIdCategories sampleStore "1" (some "tech")).1 ∧
      post.id = 1 ∧ cats.Nodup ∧ c ∈ cats ∧ c.name = "tech" ∧
      cats.countP (fun k => k.name == "tech") = 1 ∧
      (postPostsIdCategories (postPostsIdCategories sampleStore "1" (some "tech")).1 "1"
        (some "tech")).1.categories.countP (fun k => k.name == "tech") = 1 ∧
      (postPostsIdCategories (postPostsIdCategories sampleStore "1" (some "tech")).1 "1"
        (some "tech")).1.postCategories.countP (fun l => decide (l = (1, c.id))) = 1 :=
  ⟨by decide, by decide, by decide, by decide,
    attach_same_category_twice sampleStore "1" 1 "tech" (by decide) (by decide) (by decide)
      (by decide)⟩

/-- Claim C2: for an existing post and id lists `A` (ids of existing
categories) and `R`, the `PUT /posts/:postId/categories` handler answers 200
and leaves the post linked to exactly the ids of `(C ∪ A) \ R`, where `C` is the
set linked before: an id in both lists ends detached.  The returned categories
are the rows of those ids, and with `C` empty, `A = [3, 4]` and `R = [4]` their
ids are exactly `[3]`. -/
theorem replace_categories_disconnect_wins (unhandled : Option Response) (s : Store) (seg : String) (p : Int) (A R : List Int)
    (hseg : parseInt seg = some p) (hpost : ∃ post ∈ s.posts, post.id = p)
    (hA : ∀ a ∈ A, ∃ k ∈ s.categories, k.id = a) :
    ∃ post cats,
      s.posts.find? (fun x => x.id == p) = some post ∧
      (putPostsPostIdCategories unhandled s seg (some A) (some R)).2 =
        some ⟨200, .postWithCategories post cats⟩ ∧
      (∀ c, (p, c) ∈ (putPostsPostIdCategories unhandled s seg (some A) (some R)).1.postCategories ↔
        ((p, c) ∈ s.postCategories ∨ c ∈ A) ∧ c ∉ R) ∧
      (∀ k, k ∈ cats ↔
        k ∈ s.categories ∧ ((p, k.id) ∈ s.postCategories ∨ k.id ∈ A) ∧ k.id ∉ R) ∧
      ((∀ c, (p, c) ∉ s.postCategories) → A = [3, 4] → R = [4] →
        (s.categories.map (fun k => k.id)).Nodup → cats.map (fun k => k.id) = [3]) := by
  obtain ⟨q, hq, hqid⟩ := find?_post_of_exists hpost
  have hupd := post_update_links s p q (some A) (some R) hq (by simpa using hA)
  simp only [Option.getD_some] at hupd
  have hmem : ∀ c, (p, c) ∈ disconnectLinks p R (connectLinks p A s.postCategories) ↔
      ((p, c) ∈ s.postCategories ∨ c ∈ A) ∧ c ∉ R := by
    intro c
    rw [mem_disconnectLinks, mem_connectLinks]
    simp
  refine ⟨q, includeCategories
    { s with postCategories := (disconnectLinks p R (connectLinks p A s.postCategories)) } q,
    hq, ?_, ?_, ?_, ?_⟩
  · simp only [putPostsPostIdCategories, hseg, hupd]
  · simpa only [putPostsPostIdCategories, hseg, hupd] using hmem
  · intro k
    simp only [includeCategories, List.mem_filter, decide_eq_true_eq, hqid, hmem]
  · intro hC hA3 hR4 hnd
    subst hA3 hR4
    have h3 : (3 : Int) ∈ s.categories.map (fun k => k.id) := by
      obtain ⟨k, hk, hid⟩ := hA 3 (by simp)
      exact List.mem_map.2 ⟨k, hk, hid⟩
    have hfil : includeCategories
        { s with postCategories := (disconnectLinks p [4] (connectLinks p [3, 4] s.postCategories)) }
        q = s.categories.filter (fun k => k.id == 3) := by
      unfold includeCategories
      apply List.filter_congr
      intro k _
      simp only [hqid, hmem, hC, false_or]
      by_cases h3 : k.id = 3
      · simp [h3]
      · by_cases h4 : k.id = 4 <;> simp [h3, h4]
    rw [hfil]
    have : (s.categories.filter (fun k => k.id == 3)).map (fun k => k.id) =
        (s.categories.map (fun k => k.id)).filter (fun x => x == 3) := by
      rw [List.filter_map]; rfl
    rw [this]
    exact filter_eq_singleton _ 3 hnd h3

theorem replace_categories_disconnect_wins_witness :
    parseInt "1" = some 1 ∧ (∃ post ∈ sampleStore.posts, post.id = 1) ∧
    (∀ a ∈ [3, 4], ∃ k ∈ sampleStore.categories, k.id = a) ∧
    (∀ c, ((1 : Int), c) ∉ sampleStore.postCategories) ∧
    (sampleStore.categories.map (fun k => k.id)).Nodup ∧
    ∃ post cats,
      (putPostsPostIdCategories none sampleStore "1" (some [3, 4]) (some [4])).2 =
        some ⟨200, .postWithCategories post cats⟩ ∧
      cats.map (fun k => k.id) = [3] := by
  have h1 : parseInt "1" = some 1 := by decide
  have h2 : ∃ post ∈ sampleStore.posts, post.id = 1 := by decide
  have h3 : ∀ a ∈ [(3 : Int), 4], ∃ k ∈ sampleStore.categories, k.id = a := by decide
  have h4 : ∀ c, ((1 : Int), c) ∉ sampleStore.postCategories := by
    intro c; simp [sampleStore]
  have h5 : (sampleStore.categories.map (fun k => k.id)).Nodup := by decide
  obtain ⟨post, cats, -, hr, -, -, hex⟩ :=
    replace_categories_disconnect_wins none sampleStore "1" 1 [3, 4] [4] h1 h2 h3
  exact ⟨h1, h2, h3, h4, h5, post, cats, hr, hex h4 rfl rfl h5⟩

/-- Claim C3, as amended: for an existing User that has no Profile the
`DELETE /users/:id` handler answers 404 with the error `User not found` and
leaves the store as it was, so the User row remains. -/
theorem delete_user_without_profile_is_404 (ra : ReferentialAction) (s : Store) (seg : String)
    (i : Int) (hseg : parseInt seg = some i) (hu : ∃ u ∈ s.users, u.id = i)
    (hp : ∀ p ∈ s.profiles, p.userId ≠ i) :
    deleteUsersId ra s seg = (s, some ⟨404, .error "User not found"⟩) ∧
    ∃ u ∈ (deleteUsersId ra s seg).1.users, u.id = i := by
  have hnone : s.profiles.find? (fun p => p.userId == i) = none := by simpa using hp
  have hres : deleteUsersId ra s seg = (s, some ⟨404, .error "User not found"⟩) := by
    simp [deleteUsersId, prisma.profile.delete, hseg, hnone]
  exact ⟨hres, by rw [hres]; exact hu⟩

theorem delete_user_without_profile_is_404_witness :
    parseInt "2" = some 2 ∧ (∃ u ∈ sampleStore.users, u.id = 2) ∧
    (∀ p ∈ sampleStore.profiles, p.userId ≠ 2) ∧
    deleteUsersId .cascade sampleStore "2" =
      (sampleStore, some ⟨404, .error "User not found"⟩) ∧
    ∃ u ∈ (deleteUsersId .cascade sampleStore "2").1.users, u.id = 2 :=
  ⟨by decide, by decide, by decide,
    delete_user_without_profile_is_404 .cascade sampleStore "2" 2 (by decide) (by decide)
      (by decide)⟩

/-- Claim C3, as stated, fails: Bob (user 2) exists and has no Profile, and
the `DELETE /users/2` handler does not answer 200 with the User row removed. -/
theorem delete_user_without_profile_fails :
    (∃ u ∈ sampleStore.users, u.id = 2) ∧ (∀ p ∈ sampleStore.profiles, p.userId ≠ 2) ∧
    ¬ ((deleteUsersId .cascade sampleStore "2").2 =
          some ⟨200, .message "User and profile deleted"⟩ ∧
        ∀ u ∈ (deleteUsersId .cascade sampleStore "2").1.users, u.id ≠ 2) := by
  decide

/-- Claim C4: when the store already holds a User with email `e`, the
`POST /users` handler called with `e` answers 400 and leaves the store as it
was; and for every input the handler either leaves the store as it was or has
added exactly one User row and one Profile row that references it. -/
theorem create_user_duplicate_email_rejected (s : Store) (e : String) (name bio : Option String)
    (h : ∃ u ∈ s.users, u.email = e) :
    postUsers s (some e) name bio = (s, some ⟨400, .errorMessage .uniqueConstraint⟩) ∧
    ∀ email name1 bio1,
      (postUsers s email name1 bio1).1 = s ∨
      ∃ u p, (postUsers s email name1 bio1).1 =
          { s with users := s.users ++ [u], profiles := s.profiles ++ [p] } ∧ p.userId = u.id := by
  constructor
  · obtain ⟨u, hu, he⟩ := h
    have : s.users.any (fun u => u.email == e) = true := by
      simp only [List.any_eq_true]; exact ⟨u, hu, by simp [he]⟩
    simp [postUsers, prisma.user.create, this]
  · intro email name1 bio1
    unfold postUsers prisma.user.create
    cases email with
    | none => simp
    | some e1 =>
      by_cases h1 : s.users.any (fun u => u.email == e1) = true
      · simp [h1]
      · by_cases h2 : s.profiles.any
            (fun p => p.userId == nextId (s.users.map (fun u => u.id))) = true
        · simp only [h1, h2]; simp
        · right
          simp only [h1, h2]
          exact ⟨_, _, rfl, rfl⟩

theorem create_user_duplicate_email_rejected_witness :
    (∃ u ∈ sampleStore.users, u.email = "ann@example.org") ∧
    postUsers sampleStore (some "ann@example.org") (some "Ann again") (some "bio") =
      (sampleStore, some ⟨400, .errorMessage .uniqueConstraint⟩) :=
  ⟨by decide,
    (create_user_duplicate_email_rejected sampleStore "ann@example.org" (some "Ann again")
      (some "bio") (by decide)).1⟩

/-- Claim C5, what the code does: for an id that names no User, the handlers
of `GET /users/:id` and `GET /users/:id/posts` answer 200 with the body `null`,
and for an id that names no Post so does the handler of `GET /posts/:id`; the
404 of their `catch` blocks is not reached. -/
theorem read_missing_id_is_200_null (s : Store) (seg : String) (i : Int)
    (hseg : parseInt seg = some i) :
    ((∀ u ∈ s.users, u.id ≠ i) →
      getUsersId s seg = (s, some ⟨200, .null⟩) ∧
      getUsersIdPosts s seg = (s, some ⟨200, .null⟩)) ∧
    ((∀ p ∈ s.posts, p.id ≠ i) → getPostsId s seg = (s, some ⟨200, .null⟩)) := by
  constructor
  · intro h
    have : s.users.find? (fun u => u.id == i) = none := by simpa using h
    simp [getUsersId, getUsersIdPosts, prisma.user.findUnique, hseg, this]
  · intro h
    have : s.posts.find? (fun u => u.id == i) = none := by simpa using h
    simp [getPostsId, prisma.post.findUnique, hseg, this]

theorem read_missing_id_is_200_null_witness :
    parseInt "7" = some 7 ∧ (∀ u ∈ sampleStore.users, u.id ≠ 7) ∧
    (∀ p ∈ sampleStore.posts, p.id ≠ 7) ∧
    getUsersId sampleStore "7" = (sampleStore, some ⟨200, .null⟩) ∧
    getUsersIdPosts sampleStore "7" = (sampleStore, some ⟨200, .null⟩) ∧
    getPostsId sampleStore "7" = (sampleStore, some ⟨200, .null⟩) :=
  ⟨by decide, by decide, by decide,
    ((read_missing_id_is_200_null sampleStore "7" 7 (by decide)).1 (by decide)).1,
    ((read_missing_id_is_200_null sampleStore "7" 7 (by decide)).1 (by decide)).2,
    (read_missing_id_is_200_null sampleStore "7" 7 (by decide)).2 (by decide)⟩

/-- Claim C6, as amended: every handler decodes its path id segments with
`parseInt` and sees a segment only through the decoded value.  A segment made
of a run of decimal digits and a rest that does not go on with a digit (such as
`12abc`; a lone `0` before `x` or `X` apart, which marks radix 16) decodes to
the number the run writes, and the handler does with it what it does with the
run alone.  A segment that starts with neither white space, a sign nor a digit
(such as `abc`) decodes to `NaN`; for every segment that decodes to `NaN` the
users, profiles, posts and links are as they were, the whole store is as it was
unless the route is `POST /posts/:id/categories` (which upserts the Category
before it looks at the id), and every handler that has a `catch` block answers
with the status of that block (400 on the `POST` routes, 404 on the others). -/
theorem path_id_decoded_by_parseInt (ra : ReferentialAction) (unhandled : Option Response)
    (s : Store) (req : Request) :
    (parseInt "12abc" = some 12 ∧ parseInt "abc" = none) ∧
    (∀ ds rest : List Char, ds ≠ [] → (∀ c ∈ ds, isDecimalDigit c = true) →
      (∀ c, rest.head? = some c → isDecimalDigit c = false) →
      (ds = ['0'] → ∀ c, rest.head? = some c → c ≠ 'x' ∧ c ≠ 'X') →
      parseInt (String.mk (ds ++ rest)) = some ((decimalValue ds : Nat) : Int) ∧
      parseInt (String.mk ds) = some ((decimalValue ds : Nat) : Int) ∧
      handle ra unhandled s
          (req.mapSegments (fun seg => if seg = String.mk (ds ++ rest) then String.mk ds else seg)) =
        handle ra unhandled s req) ∧
    (∀ f : String → String, (∀ seg, parseInt (f seg) = parseInt seg) →
      handle ra unhandled s (req.mapSegments f) = handle ra unhandled s req) ∧
    (∀ cs : List Char,
      (∀ c, cs.head? = some c →
        isStrWhiteSpaceChar c = false ∧ c ≠ '-' ∧ c ≠ '+' ∧ isDecimalDigit c = false) →
      parseInt (String.mk cs) = none) ∧
    ((∃ seg ∈ req.segments, parseInt seg = none) →
      (∀ st, req.catchStatus = some st →
        (handle ra unhandled s req).2.map (fun r => r.status) = some st) ∧
      (handle ra unhandled s req).1.users = s.users ∧
      (handle ra unhandled s req).1.profiles = s.profiles ∧
      (handle ra unhandled s req).1.posts = s.posts ∧
      (handle ra unhandled s req).1.postCategories = s.postCategories ∧
      ((∀ id name, req ≠ .postPostsIdCategories id name) →
        (handle ra unhandled s req).1 = s)) := by
  refine ⟨⟨by decide, by decide⟩, ?_, fun f hf => handle_congr ra unhandled s req f hf,
    parseInt_nan_of_head, fun h => handle_nan ra unhandled s req h⟩
  intro ds rest hne hds hrest hhex
  have h1 := parseInt_decimal_append ds rest hne hds hrest hhex
  have h2 : parseInt (String.mk ds) = some ((decimalValue ds : Nat) : Int) := by
    have := parseInt_decimal_append ds [] hne hds (by simp) (by simp)
    rwa [List.append_nil] at this
  refine ⟨h1, h2, handle_congr ra unhandled s req _ ?_⟩
  intro seg
  by_cases hs : seg = String.mk (ds ++ rest)
  · rw [if_pos hs, hs, h1, h2]
  · rw [if_neg hs]

theorem path_id_decoded_by_parseInt_witness :
    (['1', '2'] ≠ ([] : List Char) ∧ (∀ c ∈ ['1', '2'], isDecimalDigit c = true) ∧
      (∀ c, ['a', 'b', 'c'].head? = some c → isDecimalDigit c = false) ∧
      (['1', '2'] = ['0'] → ∀ c, ['a', 'b', 'c'].head? = some c → c ≠ 'x' ∧ c ≠ 'X')) ∧
    handle .restrict none sampleStore (.deletePostsPostId "12") =
      handle .restrict none sampleStore (.deletePostsPostId "12abc") ∧
    (∀ c, ['a', 'b', 'c'].head? = some c →
      isStrWhiteSpaceChar c = false ∧ c ≠ '-' ∧ c ≠ '+' ∧ isDecimalDigit c = false) ∧
    parseInt (String.mk ['a', 'b', 'c']) = none ∧
    (∃ seg ∈ (Request.getUsersId "abc").segments, parseInt seg = none) ∧
    (Request.getUsersId "abc").catchStatus = some 404 ∧
    (handle .restrict none sampleStore (.getUsersId "abc")).2.map (fun r => r.status) =
      some 404 ∧
    (handle .restrict none sampleStore (.getUsersId "abc")).1 = sampleStore := by
  have hne : ['1', '2'] ≠ ([] : List Char) := by decide
  have hds : ∀ c ∈ ['1', '2'], isDecimalDigit c = true := by decide
  have hrest : ∀ c, ['a', 'b', 'c'].head? = some c → isDecimalDigit c = false := by
    intro c hc
    simp only [List.head?_cons, Option.some.injEq] at hc
    subst hc; decide
  have hhex : ['1', '2'] = ['0'] → ∀ c, ['a', 'b', 'c'].head? = some c → c ≠ 'x' ∧ c ≠ 'X' := by
    intro h; exact absurd h (by decide)
  have hhead : ∀ c, ['a', 'b', 'c'].head? = some c →
      isStrWhiteSpaceChar c = false ∧ c ≠ '-' ∧ c ≠ '+' ∧ isDecimalDigit c = false := by
    intro c hc
    simp only [List.head?_cons, Option.some.injEq] at hc
    subst hc; decide
  have hnan : ∃ seg ∈ (Request.getUsersId "abc").segments, parseInt seg = none := by decide
  have h1 := ((path_id_decoded_by_parseInt .restrict none sampleStore
    (.deletePostsPostId "12abc")).2.1 ['1', '2'] ['a', 'b', 'c'] hne hds hrest hhex).2.2
  have h2 := (path_id_decoded_by_parseInt .restrict none sampleStore
    (.getUsersId "abc")).2.2.2.1 ['a', 'b', 'c'] hhead
  have h3 := (path_id_decoded_by_parseInt .restrict none sampleStore
    (.getUsersId "abc")).2.2.2.2 hnan
  exact ⟨⟨hne, hds, hrest, hhex⟩, h1, hhead, h2, hnan, rfl, h3.1 404 rfl,
    h3.2.2.2.2.2 (by intro id name; simp)⟩

/-- Claim C6, as stated, fails: the segment `12abc` is not rejected with 400;
the `DELETE /posts/:postId` handler takes it for the id 12, answers 200 and
removes Post 12 from the store. -/
theorem path_id_12abc_is_coerced :
    ¬ ((deletePostsPostId sampleStore "12abc").2.map (fun r => r.status) = some 400 ∧
        (deletePostsPostId sampleStore "12abc").1 = sampleStore) ∧
    (∃ p ∈ sampleStore.posts, p.id = 12) ∧
    (deletePostsPostId sampleStore "12abc").2 = some ⟨200, .message "Post deleted"⟩ ∧
    ∀ p ∈ (deletePostsPostId sampleStore "12abc").1.posts, p.id ≠ 12 := by
  decide

/-- Claim C7: for an existing post and an existing category that is not
linked to it, the `DELETE /posts/:postId/categories/:categoryId` handler answers
200 with the post and its categories and leaves the whole store, and so every
link, as it was. -/
theorem detach_unlinked_category_is_noop (s : Store) (postId categoryId : String) (p c : Int)
    (hp : parseInt postId = some p) (hc : parseInt categoryId = some c)
    (hpost : ∃ post ∈ s.posts, post.id = p) (_hcat : ∃ k ∈ s.categories, k.id = c)
    (hlink : (p, c) ∉ s.postCategories) :
    ∃ post, s.posts.find? (fun q => q.id == p) = some post ∧ post.id = p ∧
      deletePostsPostIdCategoriesCategoryId s postId categoryId =
        (s, some ⟨200, .postWithCategories post (includeCategories s post)⟩) := by
  obtain ⟨q, hq, hqid⟩ := find?_post_of_exists hpost
  exact ⟨q, hq, hqid, detach_of_unlinked s postId categoryId p c q hp hc hq hlink⟩

theorem detach_unlinked_category_is_noop_witness :
    parseInt "1" = some 1 ∧ parseInt "3" = some 3 ∧
    (∃ post ∈ sampleStore.posts, post.id = 1) ∧ (∃ k ∈ sampleStore.categories, k.id = 3) ∧
    ((1 : Int), (3 : Int)) ∉ sampleStore.postCategories ∧
    ∃ post, sampleStore.posts.find? (fun q => q.id == 1) = some post ∧ post.id = 1 ∧
      deletePostsPostIdCategoriesCategoryId sampleStore "1" "3" =
        (sampleStore, some ⟨200, .postWithCategories post (includeCategories sampleStore post)⟩) :=
  ⟨by decide, by decide, by decide, by decide, by decide,
    detach_unlinked_category_is_noop sampleStore "1" "3" 1 3 (by decide) (by decide) (by decide)
      (by decide) (by decide)⟩

/-- Claim C8, what the code does: for an existing post and an id that names
no Category (and so, the join rows referencing existing categories, is not
linked), the `DELETE /posts/:postId/categories/:categoryId` handler answers 200
with the post and its categories, not 404, and leaves the store as it was. -/
theorem detach_missing_category_is_200 (s : Store) (postId categoryId : String) (p c : Int)
    (hp : parseInt postId = some p) (hc : parseInt categoryId = some c)
    (hpost : ∃ post ∈ s.posts, post.id = p) (hcat : ∀ k ∈ s.categories, k.id ≠ c)
    (hfk : ∀ l ∈ s.postCategories, ∃ k ∈ s.categories, k.id = l.2) :
    ∃ post, s.posts.find? (fun q => q.id == p) = some post ∧
      deletePostsPostIdCategoriesCategoryId s postId categoryId =
        (s, some ⟨200, .postWithCategories post (includeCategories s post)⟩) := by
  obtain ⟨q, hq, _⟩ := find?_post_of_exists hpost
  have hlink : (p, c) ∉ s.postCategories := by
    intro hmem
    obtain ⟨k, hk, hid⟩ := hfk (p, c) hmem
    exact hcat k hk hid
  exact ⟨q, hq, detach_of_unlinked s postId categoryId p c q hp hc hq hlink⟩

theorem detach_missing_category_is_200_witness :
    parseInt "1" = some 1 ∧ parseInt "99" = some 99 ∧
    (∃ post ∈ sampleStore.posts, post.id = 1) ∧ (∀ k ∈ sampleStore.categories, k.id ≠ 99) ∧
    (∀ l ∈ sampleStore.postCategories, ∃ k ∈ sampleStore.categories, k.id = l.2) ∧
    ∃ post, sampleStore.posts.find? (fun q => q.id == 1) = some post ∧
      deletePostsPostIdCategoriesCategoryId sampleStore "1" "99" =
        (sampleStore, some ⟨200, .postWithCategories post (includeCategories sampleStore post)⟩) :=
  ⟨by decide, by decide, by decide, by decide, by decide,
    detach_missing_category_is_200 sampleStore "1" "99" 1 99 (by decide) (by decide) (by decide)
      (by decide) (by decide)⟩

/-- Claim C9, as amended: the `DELETE /users/:id` handler ends in one of three
ways.  It answers 200 and neither a User nor a Profile of that id is left; or
it answers 404 and the store is as it was; or it answers 404 after the Profile
of that id has been removed and nothing else, which happens when a Profile of
that id exists and the User delete is rejected (no User of that id, or Posts
that still reference it under the `Restrict` action). -/
theorem delete_user_outcomes (ra : ReferentialAction) (s : Store) (seg : String) :
    ((deleteUsersId ra s seg).2 = some ⟨200, .message "User and profile deleted"⟩ ∧
      ∃ i, parseInt seg = some i ∧ (∀ u ∈ (deleteUsersId ra s seg).1.users, u.id ≠ i) ∧
        ∀ p ∈ (deleteUsersId ra s seg).1.profiles, p.userId ≠ i) ∨
    deleteUsersId ra s seg = (s, some ⟨404, .error "User not found"⟩) ∨
    ∃ i, parseInt seg = some i ∧
      deleteUsersId ra s seg =
        ({ s with profiles := s.profiles.filter (fun q => !(q.userId == i)) },
          some ⟨404, .error "User not found"⟩) ∧
      (∃ p ∈ s.profiles, p.userId = i) ∧
      ((∀ u ∈ s.users, u.id ≠ i) ∨ (ra = .restrict ∧ ∃ p ∈ s.posts, p.userId = some i)) := by
  cases hseg : parseInt seg with
  | none => right; left; simp [deleteUsersId, prisma.profile.delete, hseg]
  | some i =>
    cases hf : s.profiles.find? (fun p => p.userId == i) with
    | none => right; left; simp [deleteUsersId, prisma.profile.delete, hseg, hf]
    | some pr =>
      have hpr : ∃ p ∈ s.profiles, p.userId = i :=
        ⟨pr, List.mem_of_find?_eq_some hf, by simpa using List.find?_some hf⟩
      cases hu : s.users.find? (fun u => u.id == i) with
      | none =>
        right; right
        refine ⟨i, rfl, ?_, hpr, Or.inl (by simpa using hu)⟩
        simp [deleteUsersId, prisma.profile.delete, prisma.user.delete, hseg, hf, hu]
      | some u =>
        cases ra with
        | restrict =>
          by_cases hposts : s.posts.any (fun p => p.userId == some i) = true
          · right; right
            refine ⟨i, rfl, ?_, hpr, Or.inr ⟨rfl, ?_⟩⟩
            · simp [deleteUsersId, prisma.profile.delete, prisma.user.delete, hseg, hf, hu, hposts]
            · simpa using hposts
          · left
            simp [deleteUsersId, prisma.profile.delete, prisma.user.delete, hseg, hf, hu, hposts]
        | cascade =>
          left
          simp [deleteUsersId, prisma.profile.delete, prisma.user.delete, hseg, hf, hu]
        | setNull =>
          left
          simp [deleteUsersId, prisma.profile.delete, prisma.user.delete, hseg, hf, hu]

/-- Claim C9, as stated, fails: Ann (user 1) has a Profile and Posts; under the
`Restrict` action the `DELETE /users/1` handler answers 404 after it has removed
the Profile, and the User row remains. -/
theorem delete_user_not_atomic :
    ¬ (((deleteUsersId .restrict sampleStore "1").2 =
          some ⟨200, .message "User and profile deleted"⟩ ∧
        (∀ u ∈ (deleteUsersId .restrict sampleStore "1").1.users, u.id ≠ 1) ∧
        ∀ p ∈ (deleteUsersId .restrict sampleStore "1").1.profiles, p.userId ≠ 1) ∨
      (deleteUsersId .restrict sampleStore "1").1 = sampleStore) ∧
    deleteUsersId .restrict sampleStore "1" =
      ({ sampleStore with profiles := [] }, some ⟨404, .error "User not found"⟩) ∧
    (∃ u ∈ (deleteUsersId .restrict sampleStore "1").1.users, u.id = 1) := by
  decide

/-- Claim C10: the predicate `ProfileInv` (every Profile references an
existing User and no two Profiles share a `userId`) is preserved by every
handler on every input, whether the call succeeds or fails. -/
theorem profileInv_preserved (ra : ReferentialAction) (unhandled : Option Response)
    (s : Store) (req : Request)
    (h : ProfileInv s) : ProfileInv (handle ra unhandled s req).1 := by
  by_cases h1 : ∃ e n b, req = .postUsers e n b
  · obtain ⟨e, n, b, rfl⟩ := h1
    exact profileInv_postUsers s e n b h
  by_cases h2 : ∃ i b, req = .putUsersIdProfile i b
  · obtain ⟨i, b, rfl⟩ := h2
    exact profileInv_putUsersIdProfile s i b h
  by_cases h3 : ∃ i, req = .deleteUsersId i
  · obtain ⟨i, rfl⟩ := h3
    exact profileInv_deleteUsersId ra s i h
  obtain ⟨a, b⟩ := users_profiles_frame ra unhandled s req (fun e n b hh => h1 ⟨e, n, b, hh⟩)
    (fun i b hh => h2 ⟨i, b, hh⟩) (fun i hh => h3 ⟨i, hh⟩)
  exact h.of_eq a b

theorem profileInv_preserved_witness :
    ProfileInv sampleStore ∧
    ProfileInv (handle .restrict none sampleStore (.deleteUsersId "1")).1 ∧
    ProfileInv (handle .cascade none sampleStore (.postUsers (some "cy@example.org") none none)).1 :=
  ⟨by decide, profileInv_preserved .restrict none sampleStore (.deleteUsersId "1") (by decide),
    profileInv_preserved .cascade none sampleStore (.postUsers (some "cy@example.org") none none)
      (by decide)⟩

end MiniSocial
